import Mathlib

set_option maxRecDepth 8000

/-!
Shallow embedding of the clawtrace plugin service (src/service.js) and
proofs of its specified properties: the recursive sanitizer, the
start/done correlator queues, ledger tail and export, the recent-entries
route, and the session-identity resolver, together with the three
record-building paths (after_tool_call, tool_result_persist, note API).

JavaScript values are modelled by the mutual inductive JsVal below.
Strings are Lean strings (JS string length in UTF-16 code units is
modelled by codepoint length); JS numbers are modelled by integers, with
a separate JsNum type tracking NaN where the code can produce it.
String primitives that the JS code uses (toLowerCase, trim, slice,
includes, split) are modelled by executable functions on the character
list of the string, so every definition evaluates on concrete inputs.
-/

mutual
inductive JsVal where
  | vNull
  | vUndefined
  | vBool (b : Bool)
  | vNum (n : Int)
  | vStr (s : String)
  | vArr (elems : JsList)
  | vObj (fields : JsFields)
  | vOther (coerced : String)
deriving DecidableEq, Repr

inductive JsList where
  | nil
  | cons (hd : JsVal) (tl : JsList)
deriving DecidableEq, Repr

inductive JsFields where
  | nil
  | cons (key : String) (val : JsVal) (tl : JsFields)
deriving DecidableEq, Repr
end

/-- Characterwise lowercase, modelling JS `String.prototype.toLowerCase`
on the (ASCII) key names the service compares. -/
def lowerStr (s : String) : String := String.mk (s.data.map Char.toLower)

/-- Whether `pat` is a prefix of `cs` (used to model JS `includes`/`split`). -/
def prefixChars : List Char → List Char → Bool
  | [], _ => true
  | _ :: _, [] => false
  | a :: as, b :: bs => a == b && prefixChars as bs

/-- Whether `pat` occurs as a contiguous substring of `cs`. -/
def infixChars (pat : List Char) : List Char → Bool
  | [] => prefixChars pat []
  | c :: cs => prefixChars pat (c :: cs) || infixChars pat cs

/-- JS `s.includes(pat)`. -/
def strIncludes (s pat : String) : Bool := infixChars pat.data s.data

/-- The characters of `cs` that follow the first occurrence of `pat`,
or none when `pat` does not occur. -/
def afterFirstChars (pat : List Char) : List Char → Option (List Char)
  | [] => if prefixChars pat [] then some ([].drop pat.length) else none
  | c :: cs =>
      if prefixChars pat (c :: cs) then some ((c :: cs).drop pat.length)
      else afterFirstChars pat cs

/-- The characters of `cs` before the first occurrence of `pat`
(all of `cs` when `pat` does not occur). -/
def upToChars (pat : List Char) : List Char → List Char
  | [] => []
  | c :: cs => if prefixChars pat (c :: cs) then [] else c :: upToChars pat cs

/-- Piece number 1 (0-based) of JS `s.split(pat)`: the text between the
first occurrence of `pat` and the next one (or the end). Returns none
when `pat` does not occur at all, in which case `split` has no piece 1. -/
def splitSecondPiece (s pat : String) : Option String :=
  (afterFirstChars pat.data s.data).map (fun rest => String.mk (upToChars pat.data rest))

/-- JS `String.prototype.trim`, characterwise. -/
def jsTrim (s : String) : String :=
  String.mk (((s.data.dropWhile Char.isWhitespace).reverse.dropWhile Char.isWhitespace).reverse)

/-- Lexicographic string comparison on code points, modelling the JS `<`
operator on strings (as used for the `sinceTs` export filter). -/
def strLtChars : List Char → List Char → Bool
  | [], [] => false
  | [], _ :: _ => true
  | _ :: _, [] => false
  | a :: as, b :: bs => if a < b then true else if b < a then false else strLtChars as bs

/-- JS `a < b` on strings. -/
def jsStrLt (a b : String) : Bool := strLtChars a.data b.data

/-! ## Sanitizer (service.js lines 48-71, createSanitizer) -/

/-- The redaction marker for an over-long string: `<redacted:LEN>`. -/
def redactMarker (n : Nat) : String := "<redacted:" ++ toString n ++ ">"

/-- One character of the JS class `[A-Za-z0-9_-]`. -/
def isSkChar (c : Char) : Bool := c.isAlpha || c.isDigit || c == '_' || c == '-'

/-- The regex `^sk-[A-Za-z0-9_-]{10,}$` from the sanitizer. -/
def isSkToken (s : String) : Bool :=
  match s.data with
  | 's' :: 'k' :: '-' :: rest => decide (rest.length ≥ 10) && rest.all isSkChar
  | _ => false

/-- The regex `^Bearer\s+\S+` (case-insensitive) from the sanitizer. -/
def isBearerAuth (s : String) : Bool :=
  let cs := s.data
  ((cs.take 6).map Char.toLower == "bearer".data) &&
    (match cs.drop 6 with
     | [] => false
     | c :: rest => c.isWhitespace && !((c :: rest).dropWhile Char.isWhitespace).isEmpty)

/-- The alternatives of the default `dropKeysRegex`
`(token|secret|password|authorization|cookie|apiKey|apikey|bearer|accessToken|refreshToken|privateKey)`. -/
def defaultDropKeyAlts : List String :=
  ["token", "secret", "password", "authorization", "cookie", "apiKey", "apikey",
   "bearer", "accessToken", "refreshToken", "privateKey"]

/-- `re.test(k)` for a case-insensitive alternation of plain words:
some alternative occurs in `k` ignoring case. -/
def reTestAlts (alts : List String) (k : String) : Bool :=
  alts.any (fun a => infixChars (lowerStr a).data (lowerStr k).data)

/-- The default sensitive-key test built from `cfg.dropKeysRegex`'s default. -/
def defaultDropKeysTest (k : String) : Bool := reTestAlts defaultDropKeyAlts k

/-- The default `maxString` configuration value (service.js line 230). -/
def defaultMaxString : Nat := 160

/-! The recursive sanitizer returned by `createSanitizer` (service.js 48-71):
null/undefined pass through; a string longer than `maxS` becomes
`<redacted:LEN>`; an sk-shaped or bearer-shaped string becomes a typed
marker; numbers and booleans pass through; arrays and objects recurse,
with object keys matching the sensitive-key test dropped entirely; any
other value is coerced by `String(v)` (here: its stored coercion). -/
mutual
def sanitizeAny (maxS : Nat) (sens : String → Bool) : JsVal → JsVal
  | .vNull => .vNull
  | .vUndefined => .vUndefined
  | .vStr s =>
      if s.length > maxS then .vStr (redactMarker s.length)
      else if isSkToken s then .vStr "<redacted:sk>"
      else if isBearerAuth s then .vStr "<redacted:bearer>"
      else .vStr s
  | .vNum n => .vNum n
  | .vBool b => .vBool b
  | .vArr xs => .vArr (sanitizeList maxS sens xs)
  | .vObj fs => .vObj (sanitizeFields maxS sens fs)
  | .vOther r => .vStr r

def sanitizeList (maxS : Nat) (sens : String → Bool) : JsList → JsList
  | .nil => .nil
  | .cons x xs => .cons (sanitizeAny maxS sens x) (sanitizeList maxS sens xs)

def sanitizeFields (maxS : Nat) (sens : String → Bool) : JsFields → JsFields
  | .nil => .nil
  | .cons k v fs =>
      if sens k then sanitizeFields maxS sens fs
      else .cons k (sanitizeAny maxS sens v) (sanitizeFields maxS sens fs)
end

/-! Whether the object key `k` occurs anywhere (at any nesting depth)
inside a value. -/
mutual
def keyOccurs (k : String) : JsVal → Bool
  | .vArr xs => keyOccursList k xs
  | .vObj fs => keyOccursFields k fs
  | _ => false

def keyOccursList (k : String) : JsList → Bool
  | .nil => false
  | .cons x xs => keyOccurs k x || keyOccursList k xs

def keyOccursFields (k : String) : JsFields → Bool
  | .nil => false
  | .cons k2 v fs => k == k2 || keyOccurs k v || keyOccursFields k fs
end

/-! ## Sensitive-data equivalence (for the no-leak theorem of C1)

Two payloads are sensitive-equivalent when they differ only in data the
sanitizer is required to hide: the values sitting under sensitive keys
(at any depth), the content of over-long strings of equal length, and
the content of sk-shaped or bearer-shaped credential strings. The
noninterference theorem shows the sanitizer output — and hence every
params-derived field of a persisted record — is identical on
sensitive-equivalent inputs, so no such datum can reach the ledger. -/

/-! Remove every field whose key matches the sensitive-key test,
recursively, changing nothing else. -/
mutual
def scrubSens (sens : String → Bool) : JsVal → JsVal
  | .vArr xs => .vArr (scrubSensList sens xs)
  | .vObj fs => .vObj (scrubSensFields sens fs)
  | v => v

def scrubSensList (sens : String → Bool) : JsList → JsList
  | .nil => .nil
  | .cons x xs => .cons (scrubSens sens x) (scrubSensList sens xs)

def scrubSensFields (sens : String → Bool) : JsFields → JsFields
  | .nil => .nil
  | .cons k v fs =>
      if sens k then scrubSensFields sens fs
      else .cons k (scrubSens sens v) (scrubSensFields sens fs)
end

/-- String-level interchangeability: equal strings, over-long strings of
the same length, two sk-shaped tokens, or two bearer-shaped credentials
(the latter two below the length cutoff). -/
def strSensEquiv (maxS : Nat) (s1 s2 : String) : Bool :=
  (s1 == s2)
  || (decide (s1.length > maxS) && decide (s2.length > maxS) && (s1.length == s2.length))
  || (decide (s1.length ≤ maxS) && decide (s2.length ≤ maxS) && isSkToken s1 && isSkToken s2)
  || (decide (s1.length ≤ maxS) && decide (s2.length ≤ maxS) && !isSkToken s1 && !isSkToken s2
        && isBearerAuth s1 && isBearerAuth s2)

/-! Structural congruence up to `strSensEquiv` at string leaves. -/
mutual
def sensEquivCore (maxS : Nat) : JsVal → JsVal → Bool
  | .vNull, .vNull => true
  | .vUndefined, .vUndefined => true
  | .vBool a, .vBool b => a == b
  | .vNum a, .vNum b => a == b
  | .vStr a, .vStr b => strSensEquiv maxS a b
  | .vArr xs, .vArr ys => sensEquivCoreList maxS xs ys
  | .vObj fs, .vObj gs => sensEquivCoreFields maxS fs gs
  | .vOther a, .vOther b => a == b
  | _, _ => false

def sensEquivCoreList (maxS : Nat) : JsList → JsList → Bool
  | .nil, .nil => true
  | .cons x xs, .cons y ys => sensEquivCore maxS x y && sensEquivCoreList maxS xs ys
  | _, _ => false

def sensEquivCoreFields (maxS : Nat) : JsFields → JsFields → Bool
  | .nil, .nil => true
  | .cons k v fs, .cons k2 v2 gs =>
      (k == k2) && sensEquivCore maxS v v2 && sensEquivCoreFields maxS fs gs
  | _, _ => false
end

/-- Sensitive-data equivalence of two payloads: structural congruence
after discarding all sensitive-key subtrees on both sides. -/
def sensEquiv (maxS : Nat) (sens : String → Bool) (v1 v2 : JsVal) : Bool :=
  sensEquivCore maxS (scrubSens sens v1) (scrubSens sens v2)

/-! ## JS coercion and access helpers used by the service -/

/-- JS truthiness of a value. -/
def jsTruthy : JsVal → Bool
  | .vNull => false
  | .vUndefined => false
  | .vBool b => b
  | .vNum n => n != 0
  | .vStr s => s != ""
  | .vArr _ => true
  | .vObj _ => true
  | .vOther _ => true

/-- Field lookup in an object literal. -/
def lookupField : JsFields → String → Option JsVal
  | .nil, _ => none
  | .cons k v fs, key => if k == key then some v else lookupField fs key

/-- JS optional member access `v?.key`: undefined on non-objects and
missing keys. -/
def jsGet (v : JsVal) (key : String) : JsVal :=
  match v with
  | .vObj fs => (lookupField fs key).getD .vUndefined
  | _ => .vUndefined

/-- JS `a || b`: the first operand when truthy, otherwise the second. -/
def jsOr (a b : JsVal) : JsVal := if jsTruthy a then a else b

/-! JS `String(v)` coercion: strings unchanged, numbers in decimal,
true/false, "null"/"undefined", arrays joined by commas with null and
undefined elements rendered empty, plain objects as "[object Object]",
other values via their stored coercion. -/
mutual
def jsToString : JsVal → String
  | .vNull => "null"
  | .vUndefined => "undefined"
  | .vBool b => if b then "true" else "false"
  | .vNum n => toString n
  | .vStr s => s
  | .vArr xs => jsArrJoin xs
  | .vObj _ => "[object Object]"
  | .vOther r => r

def jsArrJoin : JsList → String
  | .nil => ""
  | .cons x tl =>
      (match x with
       | .vNull => ""
       | .vUndefined => ""
       | v => jsToString v)
      ++ (match tl with
          | .nil => ""
          | .cons _ _ => "," ++ jsArrJoin tl)
end

/-! ## summarize (service.js 104-128) -/

/-- Tool-specific one-line summary of sanitized params (`summarize`).
For exec the command string is coerced and clipped at 160 characters;
for write/edit/read the first truthy of path/filePath/file_path is
returned as-is (a JS value); browser/message/cron build a short string
from action and target; other tools summarize to the empty string. -/
def summarize (toolName : String) (params : JsVal) : JsVal :=
  if toolName == "exec" then
    let cmdV := jsGet params "command"
    let cmd := if jsTruthy cmdV then jsToString cmdV else ""
    .vStr (if cmd.length > 160 then String.mk (cmd.data.take 157) ++ "..." else cmd)
  else if toolName == "write" || toolName == "edit" || toolName == "read" then
    jsOr (jsGet params "path") (jsOr (jsGet params "filePath") (jsOr (jsGet params "file_path") (.vStr "")))
  else if toolName == "browser" then
    let action := jsOr (jsGet params "action") (.vStr "")
    let url := jsOr (jsGet params "targetUrl") (.vStr "")
    .vStr (jsTrim (jsToString action ++ (if jsTruthy url then " " ++ jsToString url else "")))
  else if toolName == "message" then
    let action := jsOr (jsGet params "action") (.vStr "")
    let channel := jsOr (jsGet params "channel") (.vStr "")
    .vStr (jsTrim (jsToString action ++ (if jsTruthy channel then " " ++ jsToString channel else "")))
  else if toolName == "cron" then
    let action := jsOr (jsGet params "action") (.vStr "")
    .vStr (jsTrim (jsToString action))
  else .vStr ""

/-! ## pickPaths and pickUrl (service.js 73-102) -/

/-- The key names whose string values `pickPaths` collects. -/
def pathKeyNames : List String := ["path", "filePath", "file_path", "outPath", "jsonlPath"]

/-! The `walk` of `pickPaths`: only truthy objects/arrays are entered;
for each entry, a string value under one of the path key names is
collected; an array value has `walk` applied to each of its elements;
any other object value is walked. On an array, entries are indexed by
position so string elements are never collected directly. -/
mutual
def walkPaths : JsVal → List String
  | .vObj fs => walkPathsFields fs
  | .vArr xs => walkPathsArr xs
  | _ => []

def walkPathsFields : JsFields → List String
  | .nil => []
  | .cons k v fs =>
      (match v with
       | .vStr s => if pathKeyNames.contains k then [s] else []
       | .vArr ys => walkPathsElems ys
       | .vObj gs => walkPathsFields gs
       | _ => []) ++ walkPathsFields fs

def walkPathsArr : JsList → List String
  | .nil => []
  | .cons v xs =>
      (match v with
       | .vArr ys => walkPathsElems ys
       | .vObj gs => walkPathsFields gs
       | _ => []) ++ walkPathsArr xs

def walkPathsElems : JsList → List String
  | .nil => []
  | .cons v xs => walkPaths v ++ walkPathsElems xs
end

/-- First-occurrence deduplication, modelling `[...new Set(paths)]`. -/
def dedupFirst (seen : List String) : List String → List String
  | [] => []
  | x :: xs => if seen.contains x then dedupFirst seen xs else x :: dedupFirst (x :: seen) xs

/-- `pickPaths` (service.js 73-89): collected path strings, deduplicated
in first-seen order, clipped to 6. -/
def pickPaths (args : JsVal) : List String := (dedupFirst [] (walkPaths args)).take 6

/-- Whether a key counts as a URL key for `pickUrl`:
`k.toLowerCase().includes("url") || k === "targetUrl"`. -/
def urlKeyTest (k : String) : Bool := strIncludes (lowerStr k) "url" || k == "targetUrl"

/-! The `walk` of `pickUrl`: only truthy objects/arrays are entered; a
string value under a URL key is collected; any object-typed value
(object or array) is walked. Array entries are indexed by position, so
string elements are never collected directly. -/
mutual
def walkUrls : JsVal → List String
  | .vObj fs => walkUrlsFields fs
  | .vArr xs => walkUrlsArr xs
  | _ => []

def walkUrlsFields : JsFields → List String
  | .nil => []
  | .cons k v fs =>
      (match v with
       | .vStr s => if urlKeyTest k then [s] else []
       | .vArr ys => walkUrlsArr ys
       | .vObj gs => walkUrlsFields gs
       | _ => []) ++ walkUrlsFields fs

def walkUrlsArr : JsList → List String
  | .nil => []
  | .cons v xs =>
      (match v with
       | .vArr ys => walkUrlsArr ys
       | .vObj gs => walkUrlsFields gs
       | _ => []) ++ walkUrlsArr xs
end

/-- `pickUrl` (service.js 91-102): the first truthy collected candidate. -/
def pickUrl (args : JsVal) : Option String := (walkUrls args).find? (fun s => s != "")

/-! ## Start/done correlator (service.js 491-518) -/

/-- A pending start observation pushed by `pushStart`:
`{tsMs, summary, paths, url}`. -/
structure StartObs where
  tsMs : Nat
  summary : JsVal
  paths : List String
  url : Option String
deriving DecidableEq, Repr

/-- The observation `pushStart` builds from the (already sanitized)
params at time `now`. -/
def mkStartObs (now : Nat) (toolName : String) (params : JsVal) : StartObs :=
  { tsMs := now, summary := summarize toolName params,
    paths := pickPaths params, url := pickUrl params }

/-- Push onto a per-(session,tool) queue and evict from the front while
the length exceeds 40 (`q.push(...)` then `while (q.length > 40) q.shift()`). -/
def pushQ (q : List StartObs) (o : StartObs) : List StartObs :=
  let q2 := q ++ [o]
  q2.drop (q2.length - 40)

/-- Drop queue-head entries older than `maxAge`
(`while (q.length && (now - q[0].tsMs) > maxAgeMs) q.shift()`). -/
def dropStaleQ (now maxAge : Nat) (q : List StartObs) : List StartObs :=
  q.dropWhile (fun o => decide (now - o.tsMs > maxAge))

/-- Evict stale heads, then pop the oldest remaining entry if any,
returning it together with the remaining queue. -/
def popQ (now maxAge : Nat) (q : List StartObs) : Option StartObs × List StartObs :=
  match dropStaleQ now maxAge q with
  | [] => (none, [])
  | h :: t => (some h, t)

/-- The `recentStarts` state: a queue per (sessionKey, toolName). The
JS Map-of-Maps is modelled as a total function defaulting to the empty
queue; a missing JS sessionKey is modelled as the empty string (both
are falsy in the guard). -/
abbrev RecentStarts := String → String → List StartObs

/-- The empty correlator state. -/
def emptyStarts : RecentStarts := fun _ _ => []

/-- `pushStart(sessionKey, toolName, params)` at time `now` (service.js
493-506): no-op for falsy session or tool, otherwise append the built
observation to the pair's queue with cap-40 eviction. -/
def pushStart (st : RecentStarts) (sessionKey toolName : String) (now : Nat) (params : JsVal) :
    RecentStarts :=
  if sessionKey == "" || toolName == "" then st
  else fun sk tn =>
    if sk == sessionKey && tn == toolName then
      pushQ (st sessionKey toolName) (mkStartObs now toolName params)
    else st sk tn

/-- `popRecentStart(sessionKey, toolName, maxAgeMs)` at time `now`
(service.js 508-518): drop too-old heads of the pair's queue in place,
then shift and return the oldest remaining entry, or nothing. -/
def popRecentStart (st : RecentStarts) (sessionKey toolName : String) (now maxAge : Nat) :
    Option StartObs × RecentStarts :=
  let r := popQ now maxAge (st sessionKey toolName)
  (r.1, fun sk tn => if sk == sessionKey && tn == toolName then r.2 else st sk tn)

/-! ## Ledger tail, recent route, export (service.js 32-37, 352-414) -/

/-- A JS number that is either an integer or NaN (NaN arises from
`parseInt` on non-numeric input and propagates). -/
inductive JsNum where
  | nan
  | int (i : Int)
deriving DecidableEq, Repr

/-- JS `Math.max` on two values: NaN-propagating. -/
def jsMaxN : JsNum → JsNum → JsNum
  | .nan, _ => .nan
  | _, .nan => .nan
  | .int a, .int b => .int (max a b)

/-- JS `Math.min` on two values: NaN-propagating. -/
def jsMinN : JsNum → JsNum → JsNum
  | .nan, _ => .nan
  | _, .nan => .nan
  | .int a, .int b => .int (min a b)

/-- Decimal value of a digit run. -/
def digitsToNat (ds : List Char) : Nat :=
  ds.foldl (fun a c => a * 10 + (c.toNat - '0'.toNat)) 0

/-- JS `parseInt(s, 10)`: skip leading whitespace, optional sign, then
the longest leading digit run; NaN when there is no digit. -/
def parseIntJS (s : String) : JsNum :=
  let cs := s.data.dropWhile Char.isWhitespace
  let signed : Bool × List Char :=
    match cs with
    | '-' :: r => (true, r)
    | '+' :: r => (false, r)
    | _ => (false, cs)
  let ds := signed.2.takeWhile Char.isDigit
  if ds.isEmpty then .nan
  else .int (if signed.1 then -(digitsToNat ds : Int) else (digitsToNat ds : Int))

/-- `tailLines` (service.js 32-37) on the parsed non-empty lines of the
ledger file: `lines.slice(Math.max(0, lines.length - maxLines))`. With
an integer count this keeps the last `maxLines` lines; with NaN the
slice start coerces to 0 and the whole file is returned. -/
def tailLines (lines : List String) (maxLines : JsNum) : List String :=
  match maxLines with
  | .nan => lines
  | .int m => lines.drop (max 0 ((lines.length : Int) - m)).toNat

/-- Appending one serialized record line to the ledger file
(`fs.appendFileSync(ledgerPath, JSON.stringify(entry) + "\n")`); the
file is modelled by its list of lines (JSON.stringify never emits a
raw newline, so each record is exactly one line). -/
def appendLedger (file : List String) (line : String) : List String := file ++ [line]

/-- The recent-entries route handler (service.js 352-361):
`n = Math.min(2000, Math.max(1, parseInt(q.get("n") || "200", 10)))`
then `tailLines(ledgerPath, n)`. An absent or empty query value is
falsy and defaults to "200". -/
def recentHandlerLines (nParam : Option String) (ledger : List String) : List String :=
  let raw := match nParam with
    | none => "200"
    | some s => if s == "" then "200" else s
  tailLines ledger (jsMinN (.int 2000) (jsMaxN (.int 1) (parseIntJS raw)))

/-- The streaming branch of the export route (service.js 391-409),
parameterized by the platform JSON parser: `parseTs line` is none when
`JSON.parse(line)` throws, `some none` when it parses without a string
`ts` field, and `some (some ts)` when it parses with string `ts`.
Empty lines are skipped; with a truthy `sinceTs` filter, a parsed line
whose ts sorts strictly below it is skipped; parse errors pass through. -/
def exportKeep (parseTs : String → Option (Option String)) (sinceTs : Option String)
    (line : String) : Bool :=
  if line == "" then false
  else
    match sinceTs with
    | none => true
    | some ts0 =>
      if ts0 == "" then true
      else
        match parseTs line with
        | none => true
        | some none => true
        | some (some ts) => !(jsStrLt ts ts0)

/-- The lines the streaming export loop writes, in order. -/
def exportStream (parseTs : String → Option (Option String)) (sinceTs : Option String)
    (lines : List String) : List String :=
  lines.filter (exportKeep parseTs sinceTs)

/-! ## Identity maps and resolvers (service.js 130-210, 266-334) -/

/-- An entry of the session registry built by `loadSessionMap`. -/
structure SessionInfo where
  sessionId : String
  channel : Option String
  lastTo : Option String
  label : String
deriving DecidableEq, Repr

/-- An entry of the session-meta map built by `loadSessionMetaMap`
(label may be the empty string; channel may be null). -/
structure MetaInfo where
  label : String
  channel : Option String
  lastTo : Option String
deriving DecidableEq, Repr

/-- The sessionKey-indexed registry (`sessionMap`). -/
abbrev SessionRegistry := List (String × SessionInfo)

/-- The sessionId-indexed meta map (`sessionMetaMap`). -/
abbrev MetaMap := List (String × MetaInfo)

/-- The jobId-to-name cron map (`cronJobNameMap`). -/
abbrev CronMap := List (String × String)

/-- Association-list lookup modelling JS object indexing. -/
def lookupA {α : Type} : List (String × α) → String → Option α
  | [], _ => none
  | (k, v) :: rest, key => if k == key then some v else lookupA rest key

/-- A truthy string option: none for JS undefined and for the falsy
empty string. -/
def optTruthy : Option String → Option String
  | some s => if s == "" then none else some s
  | none => none

/-- One refresh step for one identity map (refreshSessionMaps,
service.js 270-288): the next load result replaces the current map only
when it is non-empty (`if (next && Object.keys(next).length) cur = next`);
a failed load yields the empty map and is likewise discarded. -/
def refreshMapStep {α : Type} (cur next : List (String × α)) : List (String × α) :=
  if next.length != 0 then next else cur

/-- Truthy label of a meta entry for `sessionMetaMap?.[sessionId]?.label`. -/
def metaLabelLookup (m : MetaMap) (sid : String) : Option String :=
  (lookupA m sid).bind (fun info => optTruthy (some info.label))

/-- `resolveLabel(sessionKey, sessionId, fallback)` (service.js 301-322),
with `reload` the result of the one-shot `loadSessionMetaMap` retry.
Returns the label and the (possibly replaced) session-meta map:
(1) truthy label in the current map by session id; (2) for a session key
containing ":cron:", the cron name map keyed by the split piece after the
marker, prefixed "cron:"; (3) if the one-shot reload is non-empty, adopt
it and retry the id lookup; (4) the caller-supplied fallback. -/
def cronLabelOf (cron : CronMap) (sk : String) : Option String :=
  if strIncludes sk ":cron:" then
    match (splitSecondPiece sk ":cron:").bind (lookupA cron) with
    | some name => if name == "" then none else some ("cron:" ++ name)
    | none => none
  else none

def resolveLabel (meta : MetaMap) (cron : CronMap) (reload : MetaMap)
    (sessionKey sessionId fallback : Option String) : Option String × MetaMap :=
  match (optTruthy sessionId).bind (metaLabelLookup meta) with
  | some l => (some l, meta)
  | none =>
    match cronLabelOf cron (sessionKey.getD "") with
    | some l => (some l, meta)
    | none =>
      if reload.length != 0 then
        match (optTruthy sessionId).bind (metaLabelLookup reload) with
        | some l => (some l, reload)
        | none => (fallback, reload)
      else (fallback, meta)

/-- `resolveChannel(sessionKey, sessionId, fallback)` (service.js
324-334): truthy channel in the session-meta map by id; for the main
session key, the registry channel; ":cron:" keys map to "cron"; else the
fallback. -/
def resolveChannel (meta : MetaMap) (reg : SessionRegistry)
    (sessionKey sessionId fallback : Option String) : Option String :=
  match (optTruthy sessionId).bind (fun sid => (lookupA meta sid).bind (fun i => optTruthy i.channel)) with
  | some c => some c
  | none =>
    let sk := sessionKey.getD ""
    match (if sk == "agent:main:main" then (lookupA reg sk).bind (fun i => optTruthy i.channel) else none) with
    | some c => some c
    | none => if strIncludes sk ":cron:" then some "cron" else fallback

/-! ## Ledger records and the three record-building paths
(service.js 416-464, 520-604) -/

/-- A persisted ledger record, mirroring the object literal passed to
`emitLedger` (ts, source, agent id/name, session key/id/label/channel,
tool, phase, fingerprint, summary, details). Fields the code can leave
undefined are options; summary and details are JS values. -/
structure LedgerEntry where
  ts : String
  source : String
  agentId : String
  agentName : String
  sessionKey : Option String
  sessionId : Option String
  sessionLabel : Option String
  sessionChannel : Option String
  tool : String
  phase : Option String
  fingerprint : Option String
  summary : JsVal
  details : JsVal
deriving DecidableEq, Repr

/-- A list of strings as a JS array value. -/
def strListToJs (l : List String) : JsVal :=
  .vArr (l.foldr (fun s acc => .cons (.vStr s) acc) .nil)

/-- An optional string as a JS value (undefined when absent). -/
def optStrToJs : Option String → JsVal
  | some s => .vStr s
  | none => .vUndefined

/-- `agent.id` of a hook-built record: `hookCtx?.agentId || "main"`. -/
def hookAgentIdField (hookAgentId : Option String) : String :=
  (optTruthy hookAgentId).getD "main"

/-- `agent.name` of a hook-built record:
`hookCtx?.agentId === agentId ? agentDisplayName : (hookCtx?.agentId || agentId)`. -/
def hookAgentNameField (hookAgentId : Option String) (cfgAgentId agentDisplayName : String) : String :=
  if hookAgentId == some cfgAgentId then agentDisplayName
  else (optTruthy hookAgentId).getD cfgAgentId

/-- The before_tool_call handler (service.js 520-525): sanitize the
event params, then record a start observation for the session and tool. -/
def beforeToolCallHandler (maxS : Nat) (sens : String → Bool) (st : RecentStarts)
    (sessionKey : Option String) (toolName : String) (rawParams : JsVal) (now : Nat) :
    RecentStarts :=
  let params := sanitizeAny maxS sens rawParams
  pushStart st (sessionKey.getD "") toolName now params

/-- The record built by the after_tool_call handler (service.js
528-562): params are sanitized, identity is resolved (the label
resolution may adopt the one-shot reload before the channel resolution
runs), and summary/fingerprint/details are derived from the sanitized
params plus the event's durationMs and error. -/
def afterToolCallEntry (maxS : Nat) (sens : String → Bool) (ts : String)
    (hookAgentId : Option String) (cfgAgentId agentDisplayName : String)
    (reg : SessionRegistry) (meta : MetaMap) (cron : CronMap) (reload : MetaMap)
    (sessionKey : Option String) (toolName : String) (rawParams : JsVal)
    (durationMs : JsVal) (error : JsVal) : LedgerEntry :=
  let params := sanitizeAny maxS sens rawParams
  let sessionInfo := (optTruthy sessionKey).bind (lookupA reg)
  let sessionId := sessionInfo.map (fun i => i.sessionId)
  let rl := resolveLabel meta cron reload sessionKey sessionId (sessionInfo.map (fun i => i.label))
  let channel := resolveChannel rl.2 reg sessionKey sessionId (sessionInfo.bind (fun i => i.channel))
  { ts := ts, source := "plugin",
    agentId := hookAgentIdField hookAgentId,
    agentName := hookAgentNameField hookAgentId cfgAgentId agentDisplayName,
    sessionKey := sessionKey, sessionId := sessionId,
    sessionLabel := rl.1, sessionChannel := channel,
    tool := toolName, phase := some "done",
    fingerprint := some ((sessionKey.getD "") ++ "|after|" ++ toolName ++ "|"
      ++ jsToString (summarize toolName params)),
    summary := summarize toolName params,
    details := .vObj (.cons "durationMs" durationMs
      (.cons "error" error
      (.cons "paths" (strListToJs (pickPaths params))
      (.cons "url" (optStrToJs (pickUrl params))
      (.cons "result" (.vStr (if jsTruthy error then "error" else "ok")) .nil))))) }

/-- The record built by the tool_result_persist handler (service.js
565-604): the matched start observation `st` (if any) supplies summary,
paths and url; isError and durationMs come from the persisted message. -/
def persistEntry (ts : String)
    (hookAgentId : Option String) (cfgAgentId agentDisplayName : String)
    (reg : SessionRegistry) (meta : MetaMap) (cron : CronMap) (reload : MetaMap)
    (sessionKey : Option String) (toolName : String) (isError : Bool)
    (durationMs : JsVal) (fingerprint : Option String) (st : Option StartObs) : LedgerEntry :=
  let sessionInfo := (optTruthy sessionKey).bind (lookupA reg)
  let sessionId := sessionInfo.map (fun i => i.sessionId)
  let rl := resolveLabel meta cron reload sessionKey sessionId (sessionInfo.map (fun i => i.label))
  let channel := resolveChannel rl.2 reg sessionKey sessionId (sessionInfo.bind (fun i => i.channel))
  { ts := ts, source := "plugin",
    agentId := hookAgentIdField hookAgentId,
    agentName := hookAgentNameField hookAgentId cfgAgentId agentDisplayName,
    sessionKey := sessionKey, sessionId := sessionId,
    sessionLabel := rl.1, sessionChannel := channel,
    tool := toolName, phase := some "done",
    fingerprint := fingerprint,
    summary := (match st with
      | some o => jsOr o.summary (.vStr toolName)
      | none => .vStr toolName),
    details := .vObj (.cons "durationMs" durationMs
      (.cons "paths" (match st with | some o => strListToJs o.paths | none => .vUndefined)
      (.cons "url" (match st with | some o => optStrToJs o.url | none => .vUndefined)
      (.cons "error" (if isError then .vStr "tool error" else .vUndefined)
      (.cons "result" (.vStr (if isError then "error" else "ok")) .nil))))) }

/-- The note route handler's persistence path (service.js 416-464):
`text = String(payload.text || "").trim()`; empty text is rejected (no
record); otherwise a record with tool "note", the text as summary
verbatim, and constant details is built. -/
def noteEntry (ts : String) (cfgAgentId agentDisplayName : String)
    (reg : SessionRegistry) (meta : MetaMap) (cron : CronMap) (reload : MetaMap)
    (payload : JsVal) : Option LedgerEntry :=
  let text := jsTrim (jsToString (jsOr (jsGet payload "text") (.vStr "")))
  if text == "" then none
  else
    let skV := jsGet payload "sessionKey"
    let sessionKey := if jsTruthy skV then some (jsToString skV) else none
    let sessionInfo := sessionKey.bind (lookupA reg)
    let sessionId := sessionInfo.map (fun i => i.sessionId)
    let rl := resolveLabel meta cron reload sessionKey sessionId (sessionInfo.map (fun i => i.label))
    let channel := resolveChannel rl.2 reg sessionKey sessionId (sessionInfo.bind (fun i => i.channel))
    some { ts := ts, source := "plugin",
           agentId := cfgAgentId, agentName := agentDisplayName,
           sessionKey := sessionKey, sessionId := sessionId,
           sessionLabel := rl.1, sessionChannel := channel,
           tool := "note", phase := none, fingerprint := none,
           summary := .vStr text,
           details := .vObj (.cons "result" (.vStr "ok") .nil) }

/-! ## Sanitizer lemmas -/

/-! A key matching the sensitive-key test never occurs in sanitizer output. -/
mutual
theorem keyOccurs_sanitizeAny (maxS : Nat) (sens : String → Bool) (k : String) (hk : sens k = true) :
    ∀ v : JsVal, keyOccurs k (sanitizeAny maxS sens v) = false
  | .vNull => rfl
  | .vUndefined => rfl
  | .vBool _ => rfl
  | .vNum _ => rfl
  | .vStr s => by
      simp only [sanitizeAny]
      split_ifs <;> rfl
  | .vArr xs => by
      simpa [sanitizeAny, keyOccurs] using keyOccurs_sanitizeList maxS sens k hk xs
  | .vObj fs => by
      simpa [sanitizeAny, keyOccurs] using keyOccurs_sanitizeFields maxS sens k hk fs
  | .vOther _ => rfl

theorem keyOccurs_sanitizeList (maxS : Nat) (sens : String → Bool) (k : String) (hk : sens k = true) :
    ∀ xs : JsList, keyOccursList k (sanitizeList maxS sens xs) = false
  | .nil => rfl
  | .cons x xs => by
      simp [sanitizeList, keyOccursList, keyOccurs_sanitizeAny maxS sens k hk x,
        keyOccurs_sanitizeList maxS sens k hk xs]

theorem keyOccurs_sanitizeFields (maxS : Nat) (sens : String → Bool) (k : String) (hk : sens k = true) :
    ∀ fs : JsFields, keyOccursFields k (sanitizeFields maxS sens fs) = false
  | .nil => rfl
  | .cons k2 v fs => by
      by_cases hs : sens k2 = true
      · simpa [sanitizeFields, hs] using keyOccurs_sanitizeFields maxS sens k hk fs
      · have hne : (k == k2) = false := by
          refine beq_eq_false_iff_ne.mpr (fun he => ?_)
          rw [he] at hk
          exact hs hk
        simp [sanitizeFields, hs, keyOccursFields, hne,
          keyOccurs_sanitizeAny maxS sens k hk v, keyOccurs_sanitizeFields maxS sens k hk fs]
end

/-- String-level interchangeability gives equal sanitizer output. -/
theorem sanitizeStr_strEquiv (maxS : Nat) (sens : String → Bool) (a b : String)
    (h : strSensEquiv maxS a b = true) :
    sanitizeAny maxS sens (.vStr a) = sanitizeAny maxS sens (.vStr b) := by
  unfold strSensEquiv at h
  simp only [Bool.or_eq_true, Bool.and_eq_true, beq_iff_eq, decide_eq_true_eq,
    Bool.not_eq_true'] at h
  rcases h with ((h | h) | h) | h
  · rw [h]
  · obtain ⟨⟨ha, hb⟩, hlen⟩ := h
    simp [sanitizeAny, ha, hb, hlen]
  · obtain ⟨⟨⟨ha, hb⟩, hs1⟩, hs2⟩ := h
    simp [sanitizeAny, Nat.not_lt.mpr ha, Nat.not_lt.mpr hb, hs1, hs2]
  · obtain ⟨⟨⟨⟨⟨ha, hb⟩, hn1⟩, hn2⟩, hb1⟩, hb2⟩ := h
    simp [sanitizeAny, Nat.not_lt.mpr ha, Nat.not_lt.mpr hb, hn1, hn2, hb1, hb2]

/-! Structural sensitive-equivalence gives equal sanitizer output. -/
mutual
theorem sanitizeAny_core_equiv (maxS : Nat) (sens : String → Bool) :
    ∀ v1 v2 : JsVal, sensEquivCore maxS v1 v2 = true →
      sanitizeAny maxS sens v1 = sanitizeAny maxS sens v2
  | .vNull, .vNull, _ => rfl
  | .vUndefined, .vUndefined, _ => rfl
  | .vBool a, .vBool b, h => by
      have hab : a = b := by simpa [sensEquivCore] using h
      rw [hab]
  | .vNum a, .vNum b, h => by
      have hab : a = b := by simpa [sensEquivCore] using h
      rw [hab]
  | .vStr a, .vStr b, h => by
      have hab : strSensEquiv maxS a b = true := by simpa [sensEquivCore] using h
      exact sanitizeStr_strEquiv maxS sens a b hab
  | .vArr xs, .vArr ys, h => by
      have hl : sensEquivCoreList maxS xs ys = true := by simpa [sensEquivCore] using h
      simpa [sanitizeAny] using congrArg JsVal.vArr (sanitizeList_core_equiv maxS sens xs ys hl)
  | .vObj fs, .vObj gs, h => by
      have hf : sensEquivCoreFields maxS fs gs = true := by simpa [sensEquivCore] using h
      simpa [sanitizeAny] using congrArg JsVal.vObj (sanitizeFields_core_equiv maxS sens fs gs hf)
  | .vOther a, .vOther b, h => by
      have hab : a = b := by simpa [sensEquivCore] using h
      rw [hab]
  | .vNull, .vUndefined, h => nomatch h
  | .vNull, .vBool _, h => nomatch h
  | .vNull, .vNum _, h => nomatch h
  | .vNull, .vStr _, h => nomatch h
  | .vNull, .vArr _, h => nomatch h
  | .vNull, .vObj _, h => nomatch h
  | .vNull, .vOther _, h => nomatch h
  | .vUndefined, .vNull, h => nomatch h
  | .vUndefined, .vBool _, h => nomatch h
  | .vUndefined, .vNum _, h => nomatch h
  | .vUndefined, .vStr _, h => nomatch h
  | .vUndefined, .vArr _, h => nomatch h
  | .vUndefined, .vObj _, h => nomatch h
  | .vUndefined, .vOther _, h => nomatch h
  | .vBool _, .vNull, h => nomatch h
  | .vBool _, .vUndefined, h => nomatch h
  | .vBool _, .vNum _, h => nomatch h
  | .vBool _, .vStr _, h => nomatch h
  | .vBool _, .vArr _, h => nomatch h
  | .vBool _, .vObj _, h => nomatch h
  | .vBool _, .vOther _, h => nomatch h
  | .vNum _, .vNull, h => nomatch h
  | .vNum _, .vUndefined, h => nomatch h
  | .vNum _, .vBool _, h => nomatch h
  | .vNum _, .vStr _, h => nomatch h
  | .vNum _, .vArr _, h => nomatch h
  | .vNum _, .vObj _, h => nomatch h
  | .vNum _, .vOther _, h => nomatch h
  | .vStr _, .vNull, h => nomatch h
  | .vStr _, .vUndefined, h => nomatch h
  | .vStr _, .vBool _, h => nomatch h
  | .vStr _, .vNum _, h => nomatch h
  | .vStr _, .vArr _, h => nomatch h
  | .vStr _, .vObj _, h => nomatch h
  | .vStr _, .vOther _, h => nomatch h
  | .vArr _, .vNull, h => nomatch h
  | .vArr _, .vUndefined, h => nomatch h
  | .vArr _, .vBool _, h => nomatch h
  | .vArr _, .vNum _, h => nomatch h
  | .vArr _, .vStr _, h => nomatch h
  | .vArr _, .vObj _, h => nomatch h
  | .vArr _, .vOther _, h => nomatch h
  | .vObj _, .vNull, h => nomatch h
  | .vObj _, .vUndefined, h => nomatch h
  | .vObj _, .vBool _, h => nomatch h
  | .vObj _, .vNum _, h => nomatch h
  | .vObj _, .vStr _, h => nomatch h
  | .vObj _, .vArr _, h => nomatch h
  | .vObj _, .vOther _, h => nomatch h
  | .vOther _, .vNull, h => nomatch h
  | .vOther _, .vUndefined, h => nomatch h
  | .vOther _, .vBool _, h => nomatch h
  | .vOther _, .vNum _, h => nomatch h
  | .vOther _, .vStr _, h => nomatch h
  | .vOther _, .vArr _, h => nomatch h
  | .vOther _, .vObj _, h => nomatch h

theorem sanitizeList_core_equiv (maxS : Nat) (sens : String → Bool) :
    ∀ xs ys : JsList, sensEquivCoreList maxS xs ys = true →
      sanitizeList maxS sens xs = sanitizeList maxS sens ys
  | .nil, .nil, _ => rfl
  | .cons x xs, .cons y ys, h => by
      have hp : sensEquivCore maxS x y = true ∧ sensEquivCoreList maxS xs ys = true := by
        simpa [sensEquivCoreList, Bool.and_eq_true] using h
      simp [sanitizeList, sanitizeAny_core_equiv maxS sens x y hp.1,
        sanitizeList_core_equiv maxS sens xs ys hp.2]
  | .nil, .cons _ _, h => nomatch h
  | .cons _ _, .nil, h => nomatch h

theorem sanitizeFields_core_equiv (maxS : Nat) (sens : String → Bool) :
    ∀ fs gs : JsFields, sensEquivCoreFields maxS fs gs = true →
      sanitizeFields maxS sens fs = sanitizeFields maxS sens gs
  | .nil, .nil, _ => rfl
  | .cons k v fs, .cons k2 v2 gs, h => by
      have hp : k = k2 ∧ sensEquivCore maxS v v2 = true ∧ sensEquivCoreFields maxS fs gs = true := by
        simpa [sensEquivCoreFields, Bool.and_eq_true, and_assoc] using h
      obtain ⟨hk, hv, hfs⟩ := hp
      subst hk
      by_cases hs : sens k = true
      · simp [sanitizeFields, hs, sanitizeFields_core_equiv maxS sens fs gs hfs]
      · simp [sanitizeFields, hs, sanitizeAny_core_equiv maxS sens v v2 hv,
          sanitizeFields_core_equiv maxS sens fs gs hfs]
  | .nil, .cons _ _ _, h => nomatch h
  | .cons _ _ _, .nil, h => nomatch h
end

/-! Scrubbing sensitive keys first does not change the sanitizer output. -/
mutual
theorem sanitizeAny_scrub (maxS : Nat) (sens : String → Bool) :
    ∀ v : JsVal, sanitizeAny maxS sens (scrubSens sens v) = sanitizeAny maxS sens v
  | .vNull => rfl
  | .vUndefined => rfl
  | .vBool _ => rfl
  | .vNum _ => rfl
  | .vStr _ => rfl
  | .vArr xs => by simp [scrubSens, sanitizeAny, sanitizeList_scrub maxS sens xs]
  | .vObj fs => by simp [scrubSens, sanitizeAny, sanitizeFields_scrub maxS sens fs]
  | .vOther _ => rfl

theorem sanitizeList_scrub (maxS : Nat) (sens : String → Bool) :
    ∀ xs : JsList, sanitizeList maxS sens (scrubSensList sens xs) = sanitizeList maxS sens xs
  | .nil => rfl
  | .cons x xs => by
      simp [scrubSensList, sanitizeList, sanitizeAny_scrub maxS sens x,
        sanitizeList_scrub maxS sens xs]

theorem sanitizeFields_scrub (maxS : Nat) (sens : String → Bool) :
    ∀ fs : JsFields, sanitizeFields maxS sens (scrubSensFields sens fs) = sanitizeFields maxS sens fs
  | .nil => rfl
  | .cons k v fs => by
      by_cases hs : sens k = true
      · simp [scrubSensFields, sanitizeFields, hs, sanitizeFields_scrub maxS sens fs]
      · simp [scrubSensFields, sanitizeFields, hs, sanitizeAny_scrub maxS sens v,
          sanitizeFields_scrub maxS sens fs]
end

/-- Noninterference of the sanitizer: sensitive-equivalent payloads
give identical sanitizer output, so nothing the sanitizer hides can
influence anything computed from its result. -/
theorem sanitizeAny_noninterference (maxS : Nat) (sens : String → Bool) (v1 v2 : JsVal)
    (h : sensEquiv maxS sens v1 v2 = true) :
    sanitizeAny maxS sens v1 = sanitizeAny maxS sens v2 := by
  have hc := sanitizeAny_core_equiv maxS sens (scrubSens sens v1) (scrubSens sens v2) h
  rwa [sanitizeAny_scrub, sanitizeAny_scrub] at hc

/-! ## Claim C1 -/

/-- Claim C1 (amended): every record built by the after_tool_call path
carries only sanitized parameter data — the whole record is unchanged
under any change of the sensitive data in the raw params (values under
sensitive keys at any depth, content of over-long strings of a given
length, content of sk-shaped or bearer-shaped credential strings) —
and the start observation recorded by before_tool_call, which supplies
all params-derived content of the tool_result_persist record, is
likewise unchanged; the note endpoint's details are the constant
result-ok object, while its summary is the submitted text verbatim
(the counterexample shows that text is not sanitized). -/
theorem clawtrace_C1_records_sanitized (maxS : Nat) (sens : String → Bool) (p1 p2 : JsVal)
    (h : sensEquiv maxS sens p1 p2 = true) :
    (∀ ts hAid cAid dName reg meta cron reload sk tool dur err,
      afterToolCallEntry maxS sens ts hAid cAid dName reg meta cron reload sk tool p1 dur err =
      afterToolCallEntry maxS sens ts hAid cAid dName reg meta cron reload sk tool p2 dur err) ∧
    (∀ st sk tool now,
      beforeToolCallHandler maxS sens st sk tool p1 now =
      beforeToolCallHandler maxS sens st sk tool p2 now) ∧
    (∀ ts cAid dName reg meta cron reload payload e,
      noteEntry ts cAid dName reg meta cron reload payload = some e →
      e.summary = .vStr (jsTrim (jsToString (jsOr (jsGet payload "text") (.vStr "")))) ∧
      e.details = .vObj (.cons "result" (.vStr "ok") .nil)) := by
  have hs := sanitizeAny_noninterference maxS sens p1 p2 h
  refine ⟨?_, ?_, ?_⟩
  · intro ts hAid cAid dName reg meta cron reload sk tool dur err
    unfold afterToolCallEntry
    rw [hs]
  · intro st sk tool now
    unfold beforeToolCallHandler
    rw [hs]
  · intro ts cAid dName reg meta cron reload payload e he
    simp only [noteEntry] at he
    split at he
    · exact absurd he (by simp)
    · cases he
      exact ⟨rfl, rfl⟩

/-- Witness for C1: two concrete exec payloads differing only in an
apiToken value are sensitive-equivalent and produce identical
after_tool_call records. -/
theorem clawtrace_C1_witness :
    sensEquiv defaultMaxString defaultDropKeysTest
      (.vObj (.cons "command" (.vStr "ls -la") (.cons "apiToken" (.vStr "hunter2") .nil)))
      (.vObj (.cons "command" (.vStr "ls -la") (.cons "apiToken" (.vStr "other-secret") .nil))) = true ∧
    afterToolCallEntry defaultMaxString defaultDropKeysTest "2026-01-01T00:00:00Z" (some "main")
      "main" "Agent" [] [] [] [] (some "agent:main:main") "exec"
      (.vObj (.cons "command" (.vStr "ls -la") (.cons "apiToken" (.vStr "hunter2") .nil)))
      .vUndefined .vUndefined =
    afterToolCallEntry defaultMaxString defaultDropKeysTest "2026-01-01T00:00:00Z" (some "main")
      "main" "Agent" [] [] [] [] (some "agent:main:main") "exec"
      (.vObj (.cons "command" (.vStr "ls -la") (.cons "apiToken" (.vStr "other-secret") .nil)))
      .vUndefined .vUndefined :=
  ⟨by decide,
   (clawtrace_C1_records_sanitized defaultMaxString defaultDropKeysTest
      (.vObj (.cons "command" (.vStr "ls -la") (.cons "apiToken" (.vStr "hunter2") .nil)))
      (.vObj (.cons "command" (.vStr "ls -la") (.cons "apiToken" (.vStr "other-secret") .nil)))
      (by decide)).1
    "2026-01-01T00:00:00Z" (some "main") "main" "Agent" [] [] [] []
    (some "agent:main:main") "exec" .vUndefined .vUndefined⟩

/-- Counterexample to C1 as stated: the note-submission endpoint
persists the submitted text verbatim as the record's summary, so a note
whose text is a 161-character string (longer than the default maxString
of 160) reaches the ledger raw, even though the sanitizer would have
redacted that very string. -/
theorem clawtrace_C1_counterexample :
    (noteEntry "2026-01-01T00:00:00Z" "main" "Agent" [] [] [] []
        (.vObj (.cons "text" (.vStr (String.mk (List.replicate 161 'a'))) .nil))).map
        (fun e => e.summary) =
      some (.vStr (String.mk (List.replicate 161 'a'))) ∧
    (String.mk (List.replicate 161 'a')).length > defaultMaxString ∧
    sanitizeAny defaultMaxString defaultDropKeysTest
        (.vStr (String.mk (List.replicate 161 'a'))) ≠
      .vStr (String.mk (List.replicate 161 'a')) := by
  refine ⟨by decide, by decide, by decide⟩

/-! ## Claim C2 -/

/-- Claim C2 (amended): every object key matching the configured
sensitive-key test is entirely absent from the sanitizer output, at
every nesting depth (not present with a masked value), and the default
pattern covers — case-insensitively and as substrings — token, secret,
password, authorization, cookie, apiKey/apikey, bearer, accessToken,
refreshToken and privateKey. -/
theorem clawtrace_C2_matching_keys_dropped (maxS : Nat) (sens : String → Bool) (k : String)
    (hk : sens k = true) (v : JsVal) :
    keyOccurs k (sanitizeAny maxS sens v) = false ∧
    defaultDropKeyAlts.all defaultDropKeysTest = true ∧
    (["Token", "clientSecret", "PASSWORD", "Authorization", "Set-Cookie", "APIKEY",
      "BearerToken", "accessTokens", "refreshToken", "privateKey"].all defaultDropKeysTest
      = true) :=
  ⟨keyOccurs_sanitizeAny maxS sens k hk v, by decide, by decide⟩

/-- Witness for C2 at a concrete input: accessToken matches the default
pattern and is gone at both top level and nested depth. -/
theorem clawtrace_C2_witness :
    defaultDropKeysTest "accessToken" = true ∧
    keyOccurs "accessToken" (sanitizeAny defaultMaxString defaultDropKeysTest
      (.vObj (.cons "user" (.vStr "u1")
        (.cons "accessToken" (.vStr "abc")
        (.cons "nested" (.vObj (.cons "accessToken" (.vObj .nil) .nil)) .nil))))) = false :=
  ⟨by decide,
   (clawtrace_C2_matching_keys_dropped defaultMaxString defaultDropKeysTest
      "accessToken" (by decide)
      (.vObj (.cons "user" (.vStr "u1")
        (.cons "accessToken" (.vStr "abc")
        (.cons "nested" (.vObj (.cons "accessToken" (.vObj .nil) .nil)) .nil))))).1⟩

/-- Counterexample to C2 as stated: the claim's coverage list includes
the hyphenated names api-key and private-key, but the default pattern
matches neither, and an object with key "api-key" passes through the
sanitizer with the key (and its value) intact. -/
theorem clawtrace_C2_counterexample :
    defaultDropKeysTest "api-key" = false ∧
    defaultDropKeysTest "private-key" = false ∧
    sanitizeAny defaultMaxString defaultDropKeysTest
        (.vObj (.cons "api-key" (.vStr "hunter2") .nil)) =
      .vObj (.cons "api-key" (.vStr "hunter2") .nil) := by
  refine ⟨by decide, by decide, by decide⟩

/-! ## Claim C3 -/

/-- Claim C3: sanitize replaces every input string strictly longer than
the configured maximum with the marker redacted-LEN built from the
original length only; the output is a function of the length alone, so
none of the content is revealed. -/
theorem clawtrace_C3_long_strings_redacted (maxS : Nat) (sens : String → Bool) (s : String)
    (h : s.length > maxS) :
    sanitizeAny maxS sens (.vStr s) = .vStr (redactMarker s.length) := by
  simp [sanitizeAny, h]

/-- Witness for C3: a concrete 161-character string under the default
configuration becomes exactly "<redacted:161>". -/
theorem clawtrace_C3_witness :
    (String.mk (List.replicate 161 'a')).length > defaultMaxString ∧
    sanitizeAny defaultMaxString defaultDropKeysTest
        (.vStr (String.mk (List.replicate 161 'a'))) = .vStr "<redacted:161>" :=
  ⟨by decide, by
    have h := clawtrace_C3_long_strings_redacted defaultMaxString defaultDropKeysTest
      (String.mk (List.replicate 161 'a')) (by decide)
    exact h.trans (by decide)⟩

/-! ## Correlator lemmas -/

/-- The head surviving a dropWhile falsifies the predicate. -/
theorem dropWhile_head_false {α : Type} (p : α → Bool) (l : List α) (a : α) (t : List α)
    (h : l.dropWhile p = a :: t) : p a = false := by
  induction l with
  | nil => simp [List.dropWhile] at h
  | cons x xs ih =>
      rw [List.dropWhile_cons] at h
      by_cases hp : p x = true
      · rw [if_pos hp] at h
        exact ih h
      · rw [if_neg hp] at h
        cases h
        exact Bool.not_eq_true _ |>.mp hp

/-- Members of a dropWhile result are members of the original list. -/
theorem mem_of_mem_dropWhile {α : Type} (p : α → Bool) (l : List α) (a : α)
    (h : a ∈ l.dropWhile p) : a ∈ l := by
  induction l with
  | nil => simp [List.dropWhile] at h
  | cons x xs ih =>
      rw [List.dropWhile_cons] at h
      by_cases hp : p x = true
      · rw [if_pos hp] at h
        exact List.mem_cons_of_mem x (ih h)
      · rwa [if_neg hp] at h

/-- A popped observation is younger than the age bound. -/
theorem popQ_some_fresh (now maxAge : Nat) (q : List StartObs) (o : StartObs)
    (h : (popQ now maxAge q).1 = some o) : now - o.tsMs ≤ maxAge := by
  unfold popQ at h
  rcases hd : dropStaleQ now maxAge q with - | ⟨a, t⟩ <;> rw [hd] at h
  · simp at h
  · simp only at h
    cases h
    have hf := dropWhile_head_false _ _ _ _ hd
    have := of_decide_eq_false hf
    omega

/-- A popped observation was in the queue. -/
theorem popQ_some_mem (now maxAge : Nat) (q : List StartObs) (o : StartObs)
    (h : (popQ now maxAge q).1 = some o) : o ∈ q := by
  unfold popQ at h
  rcases hd : dropStaleQ now maxAge q with - | ⟨a, t⟩ <;> rw [hd] at h
  · simp at h
  · simp only at h
    cases h
    have hmem : o ∈ dropStaleQ now maxAge q := by
      rw [hd]
      exact List.mem_cons_self o t
    exact mem_of_mem_dropWhile _ q o hmem

/-- pushStart at a non-falsy (session, tool) pair updates that queue. -/
theorem pushStart_at (st : RecentStarts) (sk tn : String) (now : Nat) (p : JsVal)
    (hsk : sk ≠ "") (htn : tn ≠ "") :
    pushStart st sk tn now p sk tn = pushQ (st sk tn) (mkStartObs now tn p) := by
  unfold pushStart
  simp [beq_eq_false_iff_ne.mpr hsk, beq_eq_false_iff_ne.mpr htn]

/-- The popped value of popRecentStart is the popped value of the
pair's queue. -/
theorem popRecentStart_fst (st : RecentStarts) (sk tn : String) (now ma : Nat) :
    (popRecentStart st sk tn now ma).1 = (popQ now ma (st sk tn)).1 := rfl

/-- The state after popRecentStart holds the remaining queue at the
popped pair. -/
theorem popRecentStart_state (st : RecentStarts) (sk tn : String) (now ma : Nat) :
    (popRecentStart st sk tn now ma).2 sk tn = (popQ now ma (st sk tn)).2 := by
  unfold popRecentStart
  simp

/-! ## Claim C5 -/

/-- Claim C5: from an empty (session, tool) queue, recording start
observations S1 then S2 (both still within the 30000 ms window at match
time) makes consumeMatchingStart return S1 first, S2 second, and
nothing on a third call (FIFO order). -/
theorem clawtrace_C5_fifo (st : RecentStarts) (sk tn : String)
    (hsk : sk ≠ "") (htn : tn ≠ "") (h0 : st sk tn = [])
    (t1 t2 now : Nat) (p1 p2 : JsVal)
    (h1 : now - t1 ≤ 30000) (h2 : now - t2 ≤ 30000) :
    (popRecentStart (pushStart (pushStart st sk tn t1 p1) sk tn t2 p2) sk tn now 30000).1 =
      some (mkStartObs t1 tn p1) ∧
    (popRecentStart
        ((popRecentStart (pushStart (pushStart st sk tn t1 p1) sk tn t2 p2) sk tn now 30000).2)
        sk tn now 30000).1 = some (mkStartObs t2 tn p2) ∧
    (popRecentStart
        ((popRecentStart
          ((popRecentStart (pushStart (pushStart st sk tn t1 p1) sk tn t2 p2) sk tn now 30000).2)
          sk tn now 30000).2)
        sk tn now 30000).1 = none := by
  have hp1 : decide (30000 < now - t1) = false := decide_eq_false (Nat.not_lt.mpr h1)
  have hp2 : decide (30000 < now - t2) = false := decide_eq_false (Nat.not_lt.mpr h2)
  have e1 : pushStart st sk tn t1 p1 sk tn = [mkStartObs t1 tn p1] := by
    rw [pushStart_at st sk tn t1 p1 hsk htn, h0]
    rfl
  have e2 : pushStart (pushStart st sk tn t1 p1) sk tn t2 p2 sk tn =
      [mkStartObs t1 tn p1, mkStartObs t2 tn p2] := by
    rw [pushStart_at _ sk tn t2 p2 hsk htn, e1]
    rfl
  have q1 : popQ now 30000 [mkStartObs t1 tn p1, mkStartObs t2 tn p2] =
      (some (mkStartObs t1 tn p1), [mkStartObs t2 tn p2]) := by
    unfold popQ dropStaleQ
    rw [List.dropWhile_cons]
    simp [mkStartObs, hp1]
  have q2 : popQ now 30000 [mkStartObs t2 tn p2] =
      (some (mkStartObs t2 tn p2), []) := by
    unfold popQ dropStaleQ
    rw [List.dropWhile_cons]
    simp [mkStartObs, hp2]
  have s1 : (popRecentStart (pushStart (pushStart st sk tn t1 p1) sk tn t2 p2) sk tn now 30000).2
      sk tn = [mkStartObs t2 tn p2] := by
    rw [popRecentStart_state, e2, q1]
  have s2 : (popRecentStart
      ((popRecentStart (pushStart (pushStart st sk tn t1 p1) sk tn t2 p2) sk tn now 30000).2)
      sk tn now 30000).2 sk tn = [] := by
    rw [popRecentStart_state, s1, q2]
  refine ⟨?_, ?_, ?_⟩
  · rw [popRecentStart_fst, e2, q1]
  · rw [popRecentStart_fst, s1, q2]
  · rw [popRecentStart_fst, s2]
    rfl

/-- Witness for C5 at concrete inputs: two pushes then three pops. -/
theorem clawtrace_C5_witness :
    (popRecentStart (pushStart (pushStart emptyStarts "s1" "exec" 0 (.vStr "a")) "s1" "exec" 1
        (.vStr "b")) "s1" "exec" 2 30000).1 = some (mkStartObs 0 "exec" (.vStr "a")) ∧
    (popRecentStart
        ((popRecentStart
          ((popRecentStart (pushStart (pushStart emptyStarts "s1" "exec" 0 (.vStr "a")) "s1" "exec" 1
            (.vStr "b")) "s1" "exec" 2 30000).2)
          "s1" "exec" 2 30000).2)
        "s1" "exec" 2 30000).1 = none := by
  have h := clawtrace_C5_fifo emptyStarts "s1" "exec" (by decide) (by decide) rfl
    0 1 2 (.vStr "a") (.vStr "b") (by decide) (by decide)
  exact ⟨h.1, h.2.2⟩

/-! ## Claim C6 -/

/-- Claim C6: consumeMatchingStart never returns an observation whose
age exceeds maxAgeMs, and a stale observation is discarded even when it
is the only entry in the queue (the pop then returns nothing). -/
theorem clawtrace_C6_stale_never_returned (st : RecentStarts) (sk tn : String) (now maxAge : Nat) :
    (∀ o, (popRecentStart st sk tn now maxAge).1 = some o → now - o.tsMs ≤ maxAge) ∧
    (∀ o2, now - o2.tsMs > maxAge →
      (popRecentStart (fun _ _ => [o2]) sk tn now maxAge).1 = none) := by
  constructor
  · intro o h
    exact popQ_some_fresh now maxAge (st sk tn) o h
  · intro o2 h2
    show (popQ now maxAge [o2]).1 = none
    unfold popQ dropStaleQ
    rw [List.dropWhile_cons]
    simp [h2]

/-- Witness for C6 at concrete inputs: a fresh observation is returned
within the window, and a 40000 ms old lone observation is discarded. -/
theorem clawtrace_C6_witness :
    (10 : Nat) - (mkStartObs 5 "exec" .vNull).tsMs ≤ 30000 ∧
    (popRecentStart (fun _ _ => [mkStartObs 0 "exec" .vNull]) "s1" "exec" 40000 30000).1 = none :=
  ⟨(clawtrace_C6_stale_never_returned (fun _ _ => [mkStartObs 5 "exec" .vNull]) "s1" "exec"
      10 30000).1 (mkStartObs 5 "exec" .vNull) (by decide),
   (clawtrace_C6_stale_never_returned (fun _ _ => [mkStartObs 0 "exec" .vNull]) "s1" "exec"
      40000 30000).2 (mkStartObs 0 "exec" .vNull) (by decide)⟩

/-! ## Claim C7 -/

/-- Claim C7: after any recordStart the (session, tool) queue holds at
most 40 observations; pushing onto a full queue of 40 evicts the oldest
(the queue becomes the old tail plus the new observation); and a
consumeMatchingStart can only ever return an observation that is in the
queue, so the evicted one cannot be returned. -/
theorem clawtrace_C7_cap_forty (st : RecentStarts) (sk tn : String) (now : Nat) (p : JsVal)
    (hsk : sk ≠ "") (htn : tn ≠ "") :
    (pushStart st sk tn now p sk tn).length ≤ 40 ∧
    ((st sk tn).length = 40 →
      pushStart st sk tn now p sk tn = (st sk tn).tail ++ [mkStartObs now tn p]) ∧
    (∀ q now2 ma x, (popQ now2 ma q).1 = some x → x ∈ q) := by
  refine ⟨?_, ?_, ?_⟩
  · rw [pushStart_at st sk tn now p hsk htn]
    unfold pushQ
    simp only [List.length_drop]
    omega
  · intro h40
    rw [pushStart_at st sk tn now p hsk htn]
    unfold pushQ
    simp only [List.length_append, List.length_cons, List.length_nil, h40]
    rw [List.drop_append_of_le_length (by omega), List.drop_one]
  · intro q now2 ma x hx
    exact popQ_some_mem now2 ma q x hx

/-- Witness for C7 at a concrete input: pushing onto a full queue of 40
keeps the length at 40 and evicts the oldest entry. -/
theorem clawtrace_C7_witness :
    ((pushStart (fun _ _ => List.replicate 40 (mkStartObs 0 "exec" .vNull)) "s1" "exec" 99 .vNull)
      "s1" "exec").length ≤ 40 ∧
    (pushStart (fun _ _ => List.replicate 40 (mkStartObs 0 "exec" .vNull)) "s1" "exec" 99 .vNull)
      "s1" "exec" =
      (List.replicate 40 (mkStartObs 0 "exec" .vNull)).tail ++ [mkStartObs 99 "exec" .vNull] := by
  have h := clawtrace_C7_cap_forty (fun _ _ => List.replicate 40 (mkStartObs 0 "exec" .vNull))
    "s1" "exec" 99 .vNull (by decide) (by decide)
  exact ⟨h.1, h.2.1 (by decide)⟩

/-! ## Claim C4 -/

/-- Claim C4 (code bug at non-numeric n): parseInt of a non-numeric
value is NaN; NaN propagates through Math.max and Math.min unclamped,
and Array.slice coerces the NaN start index to 0, so the route returns
every line of the ledger — more than 2000 lines on a ledger of more
than 2000 lines, bypassing the hard cap. An absent value still defaults
to a 200-line tail. -/
theorem clawtrace_C4_nan_bypasses_cap (ledger : List String) :
    recentHandlerLines (some "abc") ledger = ledger ∧
    (recentHandlerLines (some "abc") ledger).length = ledger.length ∧
    recentHandlerLines none ledger = tailLines ledger (.int 200) :=
  ⟨rfl, rfl, rfl⟩

/-! ## Claim C8 -/

/-- Appending records one by one builds the list of records. -/
theorem foldl_appendLedger (recs : List String) :
    ∀ acc, recs.foldl appendLedger acc = acc ++ recs := by
  induction recs with
  | nil => intro acc; simp
  | cons r rs ih =>
      intro acc
      simp only [List.foldl_cons, appendLedger, ih, List.append_assoc, List.cons_append,
        List.nil_append]

/-- Claim C8: appending N records to an empty ledger and tailing with an
integer limit M ≤ N returns exactly the last M records, in their
original append order. -/
theorem clawtrace_C8_tail_last (recs : List String) (M : Nat) (hM : M ≤ recs.length) :
    tailLines (recs.foldl appendLedger []) (.int (M : Int)) = (recs.reverse.take M).reverse ∧
    (tailLines (recs.foldl appendLedger []) (.int (M : Int))).length = M := by
  rw [foldl_appendLedger recs []]
  simp only [List.nil_append]
  have hnn : (0 : Int) ≤ (recs.length : Int) - (M : Int) := by omega
  have hdrop : tailLines recs (.int (M : Int)) = recs.drop (recs.length - M) := by
    show recs.drop (max 0 ((recs.length : Int) - (M : Int))).toNat = recs.drop (recs.length - M)
    rw [max_eq_right hnn]
    congr 1
    omega
  constructor
  · rw [hdrop, show recs.drop (recs.length - M) = recs.rtake M from rfl]
    exact List.rtake_eq_reverse_take_reverse recs M
  · rw [hdrop, List.length_drop]
    omega

/-- Witness for C8 at a concrete input: the last 2 of 3 appended
records, in order. -/
theorem clawtrace_C8_witness :
    (2 : Nat) ≤ (["r1", "r2", "r3"] : List String).length ∧
    tailLines ((["r1", "r2", "r3"] : List String).foldl appendLedger []) (.int 2) = ["r2", "r3"] := by
  have h := clawtrace_C8_tail_last ["r1", "r2", "r3"] 2 (by decide)
  exact ⟨by decide, h.1.trans (by decide)⟩

/-! ## Claim C9 -/

/-- Nothing sorts strictly below the empty string. -/
theorem strLtChars_nil (cs : List Char) : strLtChars cs [] = false := by
  cases cs <;> rfl

/-- jsStrLt to the empty string is always false. -/
theorem jsStrLt_empty (ts : String) : jsStrLt ts "" = false := strLtChars_nil ts.data

/-- Claim C9 (amended): with a sinceTs filter the export stream emits no
parsable line whose string ts sorts strictly before the filter value;
every non-empty line that fails to parse is passed through; and every
emitted line is a non-empty line of the file — in particular, empty
lines are skipped before any parse attempt. -/
theorem clawtrace_C9_export_filter (parseTs : String → Option (Option String))
    (ts0 : String) (lines : List String) :
    (∀ l ∈ exportStream parseTs (some ts0) lines, ∀ ts,
      parseTs l = some (some ts) → jsStrLt ts ts0 = false) ∧
    (∀ l ∈ lines, l ≠ "" → parseTs l = none →
      l ∈ exportStream parseTs (some ts0) lines) ∧
    (∀ l ∈ exportStream parseTs (some ts0) lines, l ∈ lines ∧ l ≠ "") := by
  refine ⟨?_, ?_, ?_⟩
  · intro l hl ts hts
    have hp := (List.mem_filter.mp hl).2
    by_cases h0 : ts0 = ""
    · subst h0
      exact jsStrLt_empty ts
    · unfold exportKeep at hp
      rw [hts] at hp
      simp only [beq_eq_false_iff_ne.mpr h0, Bool.false_eq_true, if_false] at hp
      by_cases hl0 : l = ""
      · simp [hl0] at hp
      · simp only [beq_eq_false_iff_ne.mpr hl0, Bool.false_eq_true, if_false] at hp
        simpa using hp
  · intro l hl hne hfail
    refine List.mem_filter.mpr ⟨hl, ?_⟩
    unfold exportKeep
    rw [hfail]
    simp [beq_eq_false_iff_ne.mpr hne]
  · intro l hl
    have hp := (List.mem_filter.mp hl).2
    refine ⟨(List.mem_filter.mp hl).1, ?_⟩
    intro hl0
    subst hl0
    simp [exportKeep] at hp

/-- Witness for C9 at concrete inputs: an unparsable non-empty line
passes through, and an emitted parsable line is not below the filter. -/
theorem clawtrace_C9_witness :
    "notjson" ∈ exportStream (fun l => if l == "good" then some (some "2026") else none)
      (some "2025-01-01") ["", "notjson", "good"] ∧
    jsStrLt "2026" "2025-01-01" = false := by
  have h := clawtrace_C9_export_filter
    (fun l => if l == "good" then some (some "2026") else none) "2025-01-01" ["", "notjson", "good"]
  refine ⟨h.2.1 "notjson" (by decide) (by decide) (by decide), ?_⟩
  exact h.1 "good" (by decide) "2026" (by decide)

/-- Counterexample to C9 as stated: an empty line fails to parse
(JSON.parse of "" throws) yet the export loop drops it instead of
passing it through — with a parse oracle failing on every line,
exporting the two lines "" and "oops" emits only "oops". -/
theorem clawtrace_C9_counterexample :
    exportStream (fun _ => none) (some "2026-01-01") ["", "oops"] = ["oops"] ∧
    (fun (_ : String) => (none : Option (Option String))) "" = none :=
  ⟨by decide, rfl⟩

/-! ## Claim C10 -/

/-- Claim C10: a reload of the session-meta map that fails or comes back
empty never replaces the current map — the periodic refresh step keeps
the previous map, and the resolver's one-shot retry with an empty reload
leaves the map unchanged for every input — while any replacement that
does happen installs a whole non-empty reload result (the post-state is
always one of the two snapshots); and the retained map keeps being used:
a truthy label found in it is returned by resolveLabel, and a truthy
channel by resolveChannel. -/
theorem clawtrace_C10_empty_reload_retained (meta : MetaMap) (cron : CronMap)
    (reg : SessionRegistry) (next : MetaMap) (hnext : next ≠ [])
    (sid : String) (hsid : sid ≠ "") (info : MetaInfo)
    (hlook : lookupA meta sid = some info) (hlabel : info.label ≠ "")
    (c : String) (hchan : info.channel = some c) (hc : c ≠ "")
    (sk fb fbc : Option String) :
    refreshMapStep meta ([] : MetaMap) = meta ∧
    refreshMapStep meta next = next ∧
    (∀ sk2 sid2 fb2, (resolveLabel meta cron [] sk2 sid2 fb2).2 = meta) ∧
    (∀ reload sk2 sid2 fb2, (resolveLabel meta cron reload sk2 sid2 fb2).2 = meta ∨
      (reload ≠ [] ∧ (resolveLabel meta cron reload sk2 sid2 fb2).2 = reload)) ∧
    (resolveLabel meta cron [] sk (some sid) fb).1 = some info.label ∧
    resolveChannel meta reg sk (some sid) fbc = some c := by
  have hlabel5 : (optTruthy (some sid)).bind (metaLabelLookup meta) = some info.label := by
    simp [optTruthy, beq_eq_false_iff_ne.mpr hsid, metaLabelLookup, hlook,
      beq_eq_false_iff_ne.mpr hlabel, hlabel]
  refine ⟨rfl, ?_, ?_, ?_, ?_, ?_⟩
  · have hlen : (next.length != 0) = true := by
      simpa [bne_iff_ne, Ne, List.length_eq_zero] using hnext
    unfold refreshMapStep
    rw [if_pos hlen]
  · intro sk2 sid2 fb2
    unfold resolveLabel
    split
    · rfl
    · split
      · rfl
      · rfl
  · intro reload sk2 sid2 fb2
    unfold resolveLabel
    split
    · left
      rfl
    · split
      · left
        rfl
      · by_cases hr : reload = []
        · subst hr
          left
          rfl
        · have hlen : (reload.length != 0) = true := by
            simpa [bne_iff_ne, Ne, List.length_eq_zero] using hr
          rw [if_pos hlen]
          right
          refine ⟨hr, ?_⟩
          split <;> rfl
  · unfold resolveLabel
    rw [hlabel5]
  · unfold resolveChannel
    have hchan6 : (optTruthy (some sid)).bind
        (fun sid2 => (lookupA meta sid2).bind (fun i => optTruthy i.channel)) = some c := by
      simp [optTruthy, beq_eq_false_iff_ne.mpr hsid, hlook, hchan, beq_eq_false_iff_ne.mpr hc, hc]
    rw [hchan6]

/-- Witness for C10 at concrete inputs: an empty reload keeps the map
with the "Alice" entry, which still resolves label and channel. -/
theorem clawtrace_C10_witness :
    refreshMapStep [("id1", (⟨"Alice", some "tg", none⟩ : MetaInfo))] ([] : MetaMap) =
      [("id1", (⟨"Alice", some "tg", none⟩ : MetaInfo))] ∧
    (resolveLabel [("id1", (⟨"Alice", some "tg", none⟩ : MetaInfo))] [] [] none (some "id1")
      none).1 = some "Alice" ∧
    resolveChannel [("id1", (⟨"Alice", some "tg", none⟩ : MetaInfo))] [] none (some "id1") none =
      some "tg" := by
  have h := clawtrace_C10_empty_reload_retained
    [("id1", (⟨"Alice", some "tg", none⟩ : MetaInfo))] [] []
    [("id2", (⟨"Bob", none, none⟩ : MetaInfo))] (by decide)
    "id1" (by decide) ⟨"Alice", some "tg", none⟩ (by decide) (by decide)
    "tg" rfl (by decide) none none none
  exact ⟨h.1, h.2.2.2.2.1, h.2.2.2.2.2⟩
